import Mathlib

/-!
Shallow embedding of the core of the lightning-browser-extension fragment:

* `Bitcoin.signPsbt` / `Bitcoin.getPsbtPreview` / `tweakSigner` / `tapTweakHash`
  from `src/extension/content-script/batteries/GeyserProject.ts` (second file in
  that source bundle, the Taproot signing engine);
* the `Commando` connector and the `NWCConnector` from the unnamed source file.

External libraries (bitcoinjs-lib, @scure/btcsigner, ecpair, the secp256k1 ecc
backend, crypto-js, bolt11, the NWC client and the lnmessage transport) are not
part of the repository: their operations are taken as explicit function
parameters, except for the scalar arithmetic of libsecp256k1
(`privateNegate` / `privateAdd` / private-key range validation), which is fixed
by the curve order and is modelled concretely.

JavaScript strings are modelled as `String` (or `List Char` where the proofs
need structural recursion); JavaScript numbers are modelled as `ℚ`, with
`Option ℚ` where `NaN` can arise (`none` models `NaN`); `undefined`-able fields
are modelled as `Option`.
-/

/-! ## JavaScript-semantics helpers -/

/-- Value of a list of decimal digit characters, most significant first. -/
def digitsToNat (s : List Char) : Nat :=
  s.foldl (fun acc c => acc * 10 + (c.toNat - 48)) 0

/-- Model of JavaScript `String.prototype.replace(pat, "")` on plain (non-regex)
patterns: removes the first occurrence of `pat`, leaves the string unchanged
when `pat` does not occur.  `pat` is assumed non-empty (true for `"msat"`). -/
def removeFirst (pat : List Char) : List Char → List Char
  | [] => []
  | c :: rest =>
    if List.isPrefixOf pat (c :: rest) then (c :: rest).drop pat.length
    else c :: removeFirst pat rest

/-- Model of JavaScript `Number(string)` coercion, restricted to the shapes this
development exercises: the empty string coerces to `0`, a non-empty all-digit
string to its decimal value, and anything else is modelled as `NaN` (`none`).
(Signs, whitespace, fractional and hex literals are never produced by the
embedded code paths.) -/
def jsNumberOfChars (s : List Char) : Option ℚ :=
  if s = [] then some 0
  else if s.all Char.isDigit then some (digitsToNat s) else none

/-- Model of JavaScript `parseInt(s, 10)`, restricted to the shapes this
development exercises: the value of the maximal leading run of decimal digits,
`NaN` (`none`) when the string does not start with a digit. -/
def jsParseInt (s : String) : Option Int :=
  let ds := s.toList.takeWhile Char.isDigit
  if ds = [] then none else some (digitsToNat ds)

/-! ## secp256k1 scalar arithmetic (libsecp256k1 behaviour) -/

/-- The order of the secp256k1 group. -/
def SECP_N : Nat :=
  0xfffffffffffffffffffffffffffffffebaaedce6af48a03bbfd25e8cd0364141

/-- `ecc.privateNegate`: scalar negation modulo the curve order. -/
def privateNegate (k : Nat) : Nat := (SECP_N - k % SECP_N) % SECP_N

/-- `ecc.privateAdd`: `(k + t) mod n`, `null` (`none`) when the tweak is out of
range or the resulting scalar is zero — the "invalid tweaked key" cases. -/
def privateAdd (k t : Nat) : Option Nat :=
  if SECP_N ≤ t then none
  else if (k + t) % SECP_N = 0 then none
  else some ((k + t) % SECP_N)

/-- `ECPair.fromPrivateKey`: validates that the secret scalar is in `[1, n)`.
(The error text of the ecpair library is abbreviated.) -/
def ECPair_fromPrivateKey (k : Nat) : Except String Nat :=
  if k = 0 ∨ SECP_N ≤ k then Except.error "Expected private key in range [1, n)"
  else Except.ok k

/-! ## Taproot signing engine: tweakSigner / tapTweakHash -/

/-- A bitcoinjs `Signer` as consumed by `tweakSigner`: the secret scalar (absent
for watch-only signers) and the raw public key bytes. -/
structure Signer where
  privateKey : Option Nat
  publicKey : List Nat

/-- `toXOnly` from GeyserProject.ts: a 32-byte key is returned unchanged,
otherwise `slice(1, 33)` drops the parity byte. -/
def toXOnly (pubKey : List Nat) : List Nat :=
  if pubKey.length = 32 then pubKey else (pubKey.drop 1).take 32

/-- `tapTweakHash` from GeyserProject.ts.  `H` is the external
`bitcoin.crypto.taggedHash "TapTweak"` digest (as a scalar); the source hashes
`pubKey` alone when no merkle root `h` is supplied, `pubKey ++ h` otherwise. -/
def tapTweakHash (H : List Nat → Nat) (pubKey : List Nat) (h : Option (List Nat)) : Nat :=
  H (match h with
     | some hv => pubKey ++ hv
     | none => pubKey)

/-- `tweakSigner` from GeyserProject.ts: fails without a private key; negates
the scalar when the raw public key starts with byte `3` (odd Y); adds the
tagged hash of the X-only key (and optional merkle root) modulo the curve
order; fails when the tweaked scalar is invalid; re-wraps via
`ECPair.fromPrivateKey`. -/
def tweakSigner (H : List Nat → Nat) (signer : Signer) (tweakHash : Option (List Nat)) :
    Except String Nat :=
  match signer.privateKey with
  | none => Except.error "Private key is required for tweaking signer!"
  | some k0 =>
    let k := if signer.publicKey.head? = some 3 then privateNegate k0 else k0
    match privateAdd k (tapTweakHash H (toXOnly signer.publicKey) tweakHash) with
    | none => Except.error "Invalid tweaked private key!"
    | some tk => ECPair_fromPrivateKey tk

/-! ## PSBT data model (the parts `getPsbtPreview` / `signPsbt` read) -/

/-- One entry of a `tapBip32Derivation` field. -/
structure TapBip32Derivation where
  pubkey : List Nat

/-- The `witnessUtxo` of a PSBT input (only `value` is read). -/
structure WitnessUtxo where
  value : Nat

/-- A `psbt.data.inputs[i]` as read by the engine. -/
structure PsbtInput where
  tapInternalKey : Option (List Nat)
  tapBip32Derivation : Option (List TapBip32Derivation)
  witnessUtxo : Option WitnessUtxo

/-- A `psbt.data.outputs[i]` as read by the engine. -/
structure PsbtOutputMeta where
  tapBip32Derivation : Option (List TapBip32Derivation)

/-- A `psbt.txOutputs[i]` as read by the engine (`address` may be undefined,
e.g. for non-standard scripts). -/
structure TxOutput where
  address : Option String
  value : Nat

/-- The result of `bitcoin.Psbt.fromHex`, restricted to the fields the engine
reads.  In a decoded PSBT `outputsMeta` and `txOutputs` have equal length, and
a present `tapBip32Derivation` list is non-empty (the bip174 decoder only
materialises the field from at least one map entry). -/
structure ParsedPsbt where
  inputs : List PsbtInput
  outputsMeta : List PsbtOutputMeta
  txOutputs : List TxOutput

/-- Argument passed to the external `btc.p2tr`: the source passes either pubkey
bytes (input loop, or an output derivation record) or — in the output fallback —
the `txOutput.address` string itself. -/
inductive P2trArg
  | bytes (b : List Nat)
  | str (s : String)

/-- An entry of a preview (`~/types` `Address`): amount in sats and an address
string. -/
structure AddressEntry where
  amount : Nat
  address : String

/-- `PsbtPreview` from `~/types`. -/
structure PsbtPreview where
  inputs : List AddressEntry
  outputs : List AddressEntry

/-! The external `btc.p2tr` is a parameter of type
`P2trArg → Except String (Option String)`: it may throw (`.error`), and its
`.address` projection may be `undefined` (`.ok none`). -/

/-- The body of the input loop of `getPsbtPreview` for index `i` (the `i > 0`
guard lives in `previewInputs`): resolve the pubkey from `tapInternalKey` or
the first `tapBip32Derivation` entry, derive the p2tr address, and read the
committed value from `witnessUtxo`. -/
def previewInput (p2tr : P2trArg → Except String (Option String)) (i : Nat)
    (inp : PsbtInput) : Except String AddressEntry :=
  let pubkey : Option (List Nat) :=
    match inp.tapInternalKey with
    | some pk => some pk
    | none => (inp.tapBip32Derivation.bind List.head?).map TapBip32Derivation.pubkey
  match pubkey with
  | none => Except.error ("No pubkey found in input " ++ toString i)
  | some pk =>
    match p2tr (P2trArg.bytes pk) with
    | Except.error e => Except.error e
    | Except.ok addr =>
      match addr with
      | none => Except.error ("No address found in input " ++ toString i)
      | some a =>
        if a = "" then Except.error ("No address found in input " ++ toString i)
        else
          match inp.witnessUtxo with
          | none => Except.error ("No witnessUtxo in input " ++ toString i)
          | some w => Except.ok { amount := w.value, address := a }

/-- The input loop of `getPsbtPreview`: iteration `i > 0` throws
`"Multiple inputs currently unsupported"` before touching that input. -/
def previewInputs (p2tr : P2trArg → Except String (Option String)) (i : Nat) :
    List PsbtInput → Except String (List AddressEntry)
  | [] => Except.ok []
  | inp :: rest =>
    if i > 0 then Except.error "Multiple inputs currently unsupported"
    else
      match previewInput p2tr i inp with
      | Except.error e => Except.error e
      | Except.ok a =>
        match previewInputs p2tr (i + 1) rest with
        | Except.error e => Except.error e
        | Except.ok as => Except.ok (a :: as)

/-- `address = pubkey ? btc.p2tr(pubkey, undefined, network).address : "UNKNOWN"`
followed by the `if (!address) throw` guard and the push of
`{amount: txOutput.value, address}`. -/
def previewOutputResolve (p2tr : P2trArg → Except String (Option String)) (i : Nat)
    (pubkey : Option P2trArg) (t : TxOutput) : Except String AddressEntry :=
  match pubkey with
  | none => Except.ok { amount := t.value, address := "UNKNOWN" }
  | some arg =>
    match p2tr arg with
    | Except.error e => Except.error e
    | Except.ok addr =>
      match addr with
      | none => Except.error ("No address found in output " ++ toString i)
      | some a =>
        if a = "" then Except.error ("No address found in output " ++ toString i)
        else Except.ok { amount := t.value, address := a }

/-- The body of the output loop of `getPsbtPreview` for index `i`.  The source
reads `output.tapBip32Derivation?.[0].pubkey` — note the missing `?.` after
`[0]`: a present-but-empty derivation list raises a TypeError (unreachable from
`Psbt.fromHex`, which never materialises an empty list).  The fallback operand
`txOutput.address` is falsy when absent or empty, in which case the address is
the literal `"UNKNOWN"`. -/
def previewOutput (p2tr : P2trArg → Except String (Option String)) (i : Nat)
    (m : PsbtOutputMeta) (t : TxOutput) : Except String AddressEntry :=
  match m.tapBip32Derivation with
  | some [] => Except.error "TypeError: cannot read pubkey of undefined"
  | some (d :: _) => previewOutputResolve p2tr i (some (P2trArg.bytes d.pubkey)) t
  | none =>
    match t.address with
    | none => previewOutputResolve p2tr i none t
    | some a =>
      if a = "" then previewOutputResolve p2tr i none t
      else previewOutputResolve p2tr i (some (P2trArg.str a)) t

/-- The output loop of `getPsbtPreview`: iterates over `data.outputs`, reading
`txOutputs[i]` in step (a missing entry would be a TypeError; decoded PSBTs
keep the two lists equally long). -/
def previewOutputs (p2tr : P2trArg → Except String (Option String)) (i : Nat) :
    List PsbtOutputMeta → List TxOutput → Except String (List AddressEntry)
  | [], _ => Except.ok []
  | _ :: _, [] => Except.error "TypeError: cannot read value of undefined"
  | m :: ms, t :: ts =>
    match previewOutput p2tr i m t with
    | Except.error e => Except.error e
    | Except.ok a =>
      match previewOutputs p2tr (i + 1) ms ts with
      | Except.error e => Except.error e
      | Except.ok as => Except.ok (a :: as)

/-- `Bitcoin.getPsbtPreview` on an already-decoded PSBT: run the input loop,
then the output loop, and assemble the preview. -/
def getPsbtPreview (p2tr : P2trArg → Except String (Option String))
    (psbt : ParsedPsbt) : Except String PsbtPreview :=
  match previewInputs p2tr 0 psbt.inputs with
  | Except.error e => Except.error e
  | Except.ok ins =>
    match previewOutputs p2tr 0 psbt.outputsMeta psbt.txOutputs with
    | Except.error e => Except.error e
    | Except.ok outs => Except.ok { inputs := ins, outputs := outs }

/-! ## Taproot signing engine: signPsbt -/

/-- The fixed mainnet account prefix (`m/86'/0'/0'/0`, apostrophes escaped). -/
def BTC_TAPROOT_DERIVATION_PATH : String := "m/86\x27/0\x27/0\x27/0"

/-- The regtest/testnet account prefix (`m/86'/1'/0'/0`). -/
def BTC_TAPROOT_DERIVATION_PATH_REGTEST : String := "m/86\x27/1\x27/0\x27/0"

/-- The derivation path `signPsbt` (and `getTaprootAddress`) builds: the
network-dependent prefix with the fixed address index `0` appended. -/
def signDerivationPath (networkType : String) : String :=
  (if networkType = "bitcoin" then BTC_TAPROOT_DERIVATION_PATH
   else BTC_TAPROOT_DERIVATION_PATH_REGTEST) ++ "/0"

/-- The key pair returned by the external `Mnemonic.deriveKey`. -/
structure KeyPair where
  privateKey : Nat
  publicKey : List Nat

/-- External observable actions of `signPsbt`, in the order the source performs
them. -/
inductive SignAction
  | deriveKey (path : String)
  | signInput (i : Nat)
  | finalize
  | extract
deriving DecidableEq

/-- The external bitcoinjs `Psbt` methods `signPsbt` drives, as explicit
state-passing functions (each may throw). -/
structure SignExt where
  signTaprootInput : ParsedPsbt → Nat → Nat → Except String ParsedPsbt
  finalizeAllInputs : ParsedPsbt → Except String ParsedPsbt
  extractTransaction : ParsedPsbt → Except String String

/-- The `forEach` over `taprootPsbt.data.inputs` in `signPsbt`: sign each input
by index with the tweaked key; an exception aborts the iteration. -/
def signInputsLoop (ext : SignExt) (keyPair : Nat) :
    Nat → ParsedPsbt → List PsbtInput → List SignAction × Except String ParsedPsbt
  | _, st, [] => ([], Except.ok st)
  | i, st, _ :: rest =>
    match ext.signTaprootInput st i keyPair with
    | Except.error e => ([SignAction.signInput i], Except.error e)
    | Except.ok st2 =>
      match signInputsLoop ext keyPair (i + 1) st2 rest with
      | (as, r) => (SignAction.signInput i :: as, r)

/-- The part of `signPsbt` after the derivation call: validate the derived
secret (`ECPair.fromPrivateKey`, whose pubkey is `pubOf` of the scalar), tweak
it, sign every input, finalize all inputs, and extract the transaction hex. -/
def signPsbtAfterDerive (ext : SignExt) (pubOf : Nat → List Nat) (H : List Nat → Nat)
    (derivedKey : KeyPair) (taprootPsbt : ParsedPsbt) :
    List SignAction × Except String String :=
  match ECPair_fromPrivateKey derivedKey.privateKey with
  | Except.error e => ([], Except.error e)
  | Except.ok k =>
    match tweakSigner H { privateKey := some k, publicKey := pubOf k } none with
    | Except.error e => ([], Except.error e)
    | Except.ok keyPair =>
      match signInputsLoop ext keyPair 0 taprootPsbt taprootPsbt.inputs with
      | (sas, Except.error e) => (sas, Except.error e)
      | (sas, Except.ok st) =>
        match ext.finalizeAllInputs st with
        | Except.error e => (sas ++ [SignAction.finalize], Except.error e)
        | Except.ok st2 =>
          match ext.extractTransaction st2 with
          | Except.error e =>
            (sas ++ [SignAction.finalize, SignAction.extract], Except.error e)
          | Except.ok hex =>
            (sas ++ [SignAction.finalize, SignAction.extract], Except.ok hex)

/-- `Bitcoin.signPsbt`: builds the fixed derivation path, calls
`mnemonic.deriveKey` (always its first action, before the PSBT is even
decoded — the decode happens two statements later in the source), then tweaks,
signs, finalizes and extracts.  There is no input-count check anywhere. -/
def signPsbt (ext : SignExt) (deriveKey : String → KeyPair) (pubOf : Nat → List Nat)
    (H : List Nat → Nat) (networkType : String) (taprootPsbt : ParsedPsbt) :
    List SignAction × Except String String :=
  let derivationPath := signDerivationPath networkType
  let derivedKey := deriveKey derivationPath
  match signPsbtAfterDerive ext pubOf H derivedKey taprootPsbt with
  | (acts, r) => (SignAction.deriveKey derivationPath :: acts, r)

/-! ## Shared connector response shapes (`connector.interface`) -/

/-- `route` of a `SendPaymentResponse`.  JavaScript numbers; `none` is `NaN`. -/
structure PaymentRoute where
  total_amt : Option ℚ
  total_fees : Option ℚ
deriving DecidableEq

/-- The `data` of a `SendPaymentResponse`. -/
structure SendPaymentData where
  paymentHash : String
  preimage : String
  route : PaymentRoute
deriving DecidableEq

/-- The `data` of a `MakeInvoiceResponse`. -/
structure MakeInvoiceData where
  paymentRequest : String
  rHash : String
deriving DecidableEq

/-! ## Commando connector -/

/-- The Commando connector configuration. -/
structure CommandoConfig where
  host : String
  port : Nat
  rune : String
  pubkey : String
  wsProxy : String
  privateKey : String

/-- A JSON-ish parameter value of a Commando RPC request. -/
inductive JVal
  | str (s : String)
  | num (n : ℚ)
  | obj (fields : List (String × JVal))

/-- The request `this.ln.commando({method, params, rune})` is given. -/
structure CommandoRequest where
  method : String
  params : List (String × JVal)
  rune : String

/-- `connectPeer` args. -/
structure ConnectPeerArgs where
  pubkey : String
  host : String

/-- `sendPayment` args. -/
structure SendPaymentArgs where
  paymentRequest : String

/-- `keysend` args. -/
structure KeysendArgs where
  pubkey : String
  amount : ℚ
  customRecords : List (String × String)

/-- `checkPayment` args. -/
structure CheckPaymentArgs where
  paymentHash : String

/-- `signMessage` args. -/
structure SignMessageArgs where
  message : String

/-- `makeInvoice` args (`amount` is coerced to a number by both connectors). -/
structure MakeInvoiceArgs where
  amount : ℚ
  memo : String

/-- Request of `Commando.connectPeer`. -/
def Commando_connectPeerRequest (cfg : CommandoConfig) (args : ConnectPeerArgs) :
    CommandoRequest :=
  { method := "connect"
    params := [("id", JVal.str args.pubkey), ("host", JVal.str args.host)]
    rune := cfg.rune }

/-- Request of `Commando.getInvoices`. -/
def Commando_getInvoicesRequest (cfg : CommandoConfig) : CommandoRequest :=
  { method := "listinvoices", params := [], rune := cfg.rune }

/-- Request of `Commando.getInfo`. -/
def Commando_getInfoRequest (cfg : CommandoConfig) : CommandoRequest :=
  { method := "getinfo", params := [], rune := cfg.rune }

/-- Request of `Commando.getBalance`. -/
def Commando_getBalanceRequest (cfg : CommandoConfig) : CommandoRequest :=
  { method := "listfunds", params := [], rune := cfg.rune }

/-- Request of `Commando.sendPayment`. -/
def Commando_sendPaymentRequest (cfg : CommandoConfig) (args : SendPaymentArgs) :
    CommandoRequest :=
  { method := "pay"
    params := [("bolt11", JVal.str args.paymentRequest)]
    rune := cfg.rune }

/-- Request of `Commando.keysend`: destination, millisat amount, and the
custom records with each value hex-encoded (`UTF8.parse(v).toString(Hex)`,
supplied externally as `hexEncode`). -/
def Commando_keysendRequest (cfg : CommandoConfig) (hexEncode : String → String)
    (args : KeysendArgs) : CommandoRequest :=
  { method := "keysend"
    params :=
      [("destination", JVal.str args.pubkey),
       ("msatoshi", JVal.num (args.amount * 1000)),
       ("extratlvs",
        JVal.obj (args.customRecords.map fun p => (p.1, JVal.str (hexEncode p.2))))]
    rune := cfg.rune }

/-- Request of `Commando.checkPayment`. -/
def Commando_checkPaymentRequest (cfg : CommandoConfig) (args : CheckPaymentArgs) :
    CommandoRequest :=
  { method := "listinvoices"
    params := [("payment_hash", JVal.str args.paymentHash)]
    rune := cfg.rune }

/-- Request of `Commando.signMessage`. -/
def Commando_signMessageRequest (cfg : CommandoConfig) (args : SignMessageArgs) :
    CommandoRequest :=
  { method := "signmessage"
    params := [("message", JVal.str args.message)]
    rune := cfg.rune }

/-- Request of `Commando.makeInvoice` (`label` is the externally generated
`uuidv4()`). -/
def Commando_makeInvoiceRequest (cfg : CommandoConfig) (label : String)
    (args : MakeInvoiceArgs) : CommandoRequest :=
  { method := "invoice"
    params :=
      [("amount_msat", JVal.num (args.amount * 1000)),
       ("label", JVal.str label),
       ("description", JVal.str args.memo)]
    rune := cfg.rune }

/-- A Commando invoice as returned by `listinvoices` (the fields the connector
reads). -/
structure CommandoInvoice where
  label : String
  status : String
  description : String
  amount_received_msat : ℚ
  bolt11 : String
  payment_preimage : String
  paid_at : Nat
  payment_hash : String

/-- The `listinvoices` response envelope. -/
structure CommandoListInvoiceResponse where
  invoices : List CommandoInvoice

/-- The `pay` / `keysend` response (`amount_msat` / `amount_sent_msat` are
protocol strings carrying an `msat` suffix, modelled as `List Char`). -/
structure CommandoPayInvoiceResponse where
  payment_preimage : String
  payment_hash : String
  amount_msat : List Char
  amount_sent_msat : List Char

/-- The `data` of a `CheckPaymentResponse` as Commando builds it. -/
structure CommandoCheckPaymentData where
  paid : Bool
deriving DecidableEq

/-- The characters of the `"msat"` unit suffix. -/
def msatPat : List Char := ['m', 's', 'a', 't']

/-- The `.then` continuation of `Commando.sendPayment`: strip the first
`"msat"` from both amount strings, coerce the remaining strings to numbers
(`as unknown as number` makes the arithmetic coerce them), divide by 1000, and
assemble the normalized response. -/
def Commando_sendPaymentParse (parsed : CommandoPayInvoiceResponse) : SendPaymentData :=
  let parsedTotalAmtStr := removeFirst msatPat parsed.amount_msat
  let parsedSentAmtPaidStr := removeFirst msatPat parsed.amount_sent_msat
  let parsedTotalAmt := (jsNumberOfChars parsedTotalAmtStr).map (fun q => q / 1000)
  let parsedTotalFee :=
    match jsNumberOfChars parsedSentAmtPaidStr, jsNumberOfChars parsedTotalAmtStr with
    | some a, some b => some ((a - b) / 1000)
    | _, _ => none
  { paymentHash := parsed.payment_hash
    preimage := parsed.payment_preimage
    route := { total_amt := parsedTotalAmt, total_fees := parsedTotalFee } }

/-- The `.then` continuation of `Commando.keysend` — the source duplicates the
`sendPayment` parsing verbatim. -/
def Commando_keysendParse (parsed : CommandoPayInvoiceResponse) : SendPaymentData :=
  let parsedTotalAmtStr := removeFirst msatPat parsed.amount_msat
  let parsedSentAmtPaidStr := removeFirst msatPat parsed.amount_sent_msat
  let parsedTotalAmt := (jsNumberOfChars parsedTotalAmtStr).map (fun q => q / 1000)
  let parsedTotalFee :=
    match jsNumberOfChars parsedSentAmtPaidStr, jsNumberOfChars parsedTotalAmtStr with
    | some a, some b => some ((a - b) / 1000)
    | _, _ => none
  { paymentHash := parsed.payment_hash
    preimage := parsed.payment_preimage
    route := { total_amt := parsedTotalAmt, total_fees := parsedTotalFee } }

/-- `Commando.checkPayment` downstream of the `listinvoices` call.  The source
chains a single `.then` with **no** `.catch`: a rejected lookup propagates to
the caller unchanged.  On success, any invoice count other than one yields
`paid: false`; for exactly one invoice, `paid` is whether its status is
`"paid"`. -/
def Commando_checkPayment (lookup : Except String CommandoListInvoiceResponse) :
    Except String CommandoCheckPaymentData :=
  match lookup with
  | Except.error e => Except.error e
  | Except.ok parsed =>
    if parsed.invoices.length ≠ 1 then Except.ok { paid := false }
    else Except.ok { paid := (parsed.invoices.head?.map CommandoInvoice.status) == some "paid" }

/-! ## NWC connector -/

/-- A bolt11 tag as the `bolt11-signet` decoder returns it (`data` modelled as
its string form — the payment-hash tag carries a hex string). -/
structure Bolt11Tag where
  tagName : String
  data : String

/-- A decoded payment request (the fields the connector reads). -/
structure PaymentRequestObject where
  tags : List Bolt11Tag
  millisatoshis : Option String
  satoshis : Option Int

/-- `invoice.tags.find(tag => tag.tagName === name)?.data`. -/
def findTagData (tags : List Bolt11Tag) (name : String) : Option String :=
  (tags.find? fun t => t.tagName = name).map Bolt11Tag.data

/-- Remote calls the NWC connector can dispatch. -/
inductive NWCCall
  | payInvoice (invoice : String)
  | payKeysend (pubkey : String) (amount : ℚ) (tlv : List (Option Int × String))
deriving DecidableEq

/-- `convertCustomRecords`: each record key is `parseInt`-ed to the TLV type
(the value string is passed through). -/
def convertCustomRecords (customRecords : List (String × String)) :
    List (Option Int × String) :=
  customRecords.map fun p => (jsParseInt p.1, p.2)

/-- The `nwc.payInvoice` response (only `preimage` is read). -/
structure PayInvoiceResult where
  preimage : String

/-- `NWCConnector.sendPayment`: decode the payment request locally (`decode` is
the external `lightningPayReq.decode`, which may throw), extract the
payment-hash tag (falsy — absent or empty — throws before any remote call),
then dispatch `nwc.payInvoice` and assemble the response; the amount comes from
the decoded request (millisatoshis when truthy, else `satoshis ?? 0`).  The
first component lists the remote calls dispatched. -/
def NWC_sendPayment (decode : String → Except String PaymentRequestObject)
    (payInvoice : String → Except String PayInvoiceResult) (args : SendPaymentArgs) :
    List NWCCall × Except String SendPaymentData :=
  match decode args.paymentRequest with
  | Except.error e => ([], Except.error e)
  | Except.ok invoice =>
    match findTagData invoice.tags "payment_hash" with
    | none => ([], Except.error "Could not find payment hash in invoice")
    | some ph =>
      if ph = "" then ([], Except.error "Could not find payment hash in invoice")
      else
        match payInvoice args.paymentRequest with
        | Except.error e => ([NWCCall.payInvoice args.paymentRequest], Except.error e)
        | Except.ok response =>
          let total_amt : Option ℚ :=
            match invoice.millisatoshis with
            | some ms =>
              if ms = "" then some ((invoice.satoshis.getD 0 : Int) : ℚ)
              else (jsParseInt ms).map (fun n => (n : ℚ) / 1000)
            | none => some ((invoice.satoshis.getD 0 : Int) : ℚ)
          ([NWCCall.payInvoice args.paymentRequest],
           Except.ok
             { paymentHash := ph
               preimage := response.preimage
               route := { total_amt := total_amt, total_fees := some 0 } })

/-- The `nwc.payKeysend` response (only `preimage` is read). -/
structure PayKeysendResult where
  preimage : String

/-- `NWCConnector.keysend`: dispatch `nwc.payKeysend`; derive the payment hash
locally as `SHA256(data.preimage)` (`H` is the external crypto-js digest, hex
string to hex string); the reported amount is the requested `args.amount` and
fees are `0`. -/
def NWC_keysend (H : String → String) (payKeysend : Except String PayKeysendResult)
    (args : KeysendArgs) : List NWCCall × Except String SendPaymentData :=
  let call := NWCCall.payKeysend args.pubkey args.amount (convertCustomRecords args.customRecords)
  match payKeysend with
  | Except.error e => ([call], Except.error e)
  | Except.ok data =>
    let paymentHash := H data.preimage
    ([call],
     Except.ok
       { paymentHash := paymentHash
         preimage := data.preimage
         route := { total_amt := some args.amount, total_fees := some 0 } })

/-- The `nwc.makeInvoice` response: the payment request string and an optional
payment-hash field. -/
structure NWCInvoiceResult where
  invoice : String
  payment_hash : Option String

/-- The fallback branch of `NWCConnector.makeInvoice` taken when the remote
`payment_hash` is falsy: decode the returned payment request and use its
payment-hash tag, failing when that is falsy too. -/
def NWC_makeInvoiceFallback (decode : String → Except String PaymentRequestObject)
    (invoice : NWCInvoiceResult) : Except String MakeInvoiceData :=
  match decode invoice.invoice with
  | Except.error e => Except.error e
  | Except.ok decodedInvoice =>
    match findTagData decodedInvoice.tags "payment_hash" with
    | none => Except.error "Could not find payment hash in invoice"
    | some h =>
      if h = "" then Except.error "Could not find payment hash in invoice"
      else Except.ok { paymentRequest := invoice.invoice, rHash := h }

/-- `NWCConnector.makeInvoice` downstream of the remote call: use the remote
`payment_hash` when truthy, otherwise fall back to decoding the returned
payment request. -/
def NWC_makeInvoice (decode : String → Except String PaymentRequestObject)
    (invoice : NWCInvoiceResult) : Except String MakeInvoiceData :=
  match invoice.payment_hash with
  | some h =>
    if h = "" then NWC_makeInvoiceFallback decode invoice
    else Except.ok { paymentRequest := invoice.invoice, rHash := h }
  | none => NWC_makeInvoiceFallback decode invoice

/-- The `nwc.lookupInvoice` response (the fields the connector reads;
`settled_at` is absent or zero for unsettled invoices). -/
structure NWCLookupInvoiceResult where
  settled_at : Option Nat
  preimage : Option String

/-- The `data` of `NWCConnector.checkPayment`. -/
structure NWCCheckPaymentData where
  paid : Bool
  preimage : Option String
deriving DecidableEq

/-- `NWCConnector.checkPayment`: the whole lookup is wrapped in `try/catch`;
any exception becomes `paid: false`; on success `paid` is the truthiness of
`settled_at`. -/
def NWC_checkPayment (lookup : Except String NWCLookupInvoiceResult) :
    NWCCheckPaymentData :=
  match lookup with
  | Except.error _ => { paid := false, preimage := none }
  | Except.ok response =>
    { paid :=
        match response.settled_at with
        | some n => n != 0
        | none => false
      preimage := response.preimage }

/-- The params `NWCConnector.getTransactions` passes to
`nwc.listTransactions`. -/
structure NWCListTransactionsParams where
  unpaid : Bool
  limit : Nat
deriving DecidableEq

/-- `NWCConnector.getTransactions` requests at most 50 transactions, unpaid
ones excluded. -/
def NWC_getTransactionsParams : NWCListTransactionsParams :=
  { unpaid := false, limit := 50 }

/-- A transaction as `nwc.listTransactions` returns it (the fields read). -/
structure NWCTransaction where
  description : String
  preimage : String
  payment_hash : String
  settled_at : Nat
  amount : Nat
  type : String

/-- A `ConnectorTransaction` of the normalized response. -/
structure ConnectorTransaction where
  id : String
  memo : String
  preimage : String
  payment_hash : String
  settled : Bool
  settleDate : Nat
  totalAmount : Nat
  type : String
deriving DecidableEq

/-- The per-transaction mapping of `NWCConnector.getTransactions`: the id is
the list position rendered as a string, every transaction is marked settled,
and the settle date is the remote `settled_at` times 1000. -/
def NWC_mapTransaction (index : Nat) (t : NWCTransaction) : ConnectorTransaction :=
  { id := toString index
    memo := t.description
    preimage := t.preimage
    payment_hash := t.payment_hash
    settled := true
    settleDate := t.settled_at * 1000
    totalAmount := t.amount
    type := if t.type = "incoming" then "received" else "sent" }

/-- The indexed `.map` over the returned transaction list, from position `i`. -/
def NWC_getTransactionsLoop (i : Nat) : List NWCTransaction → List ConnectorTransaction
  | [] => []
  | t :: rest => NWC_mapTransaction i t :: NWC_getTransactionsLoop (i + 1) rest

/-- The normalized transaction list of `NWCConnector.getTransactions`. -/
def NWC_getTransactionsParse (ts : List NWCTransaction) : List ConnectorTransaction :=
  NWC_getTransactionsLoop 0 ts

/-! ## Helper lemmas -/

theorem NWC_getTransactionsLoop_get? (ts : List NWCTransaction) :
    ∀ i n, (NWC_getTransactionsLoop i ts).get? n =
      (ts.get? n).map fun t => NWC_mapTransaction (i + n) t := by
  induction ts with
  | nil => intro i n; simp [NWC_getTransactionsLoop]
  | cons t rest ih =>
    intro i n
    cases n with
    | zero => simp [NWC_getTransactionsLoop]
    | succ m =>
      have h := ih (i + 1) m
      simp only [NWC_getTransactionsLoop, List.get?_cons_succ, h]
      have : i + 1 + m = i + (m + 1) := by omega
      rw [this]

/-! ## Claim theorems -/

/-- Claim C5 (confirmed): for every `NWCConnector.keysend` call that receives a
preimage from the remote service, the returned payment hash is the locally
computed hash of that preimage, and the returned total amount is the requested
amount (with zero fees). -/
theorem c5_keysend_hash_and_amount (H : String → String) (args : KeysendArgs)
    (data : PayKeysendResult) :
    (NWC_keysend H (Except.ok data) args).2 =
      Except.ok
        { paymentHash := H data.preimage
          preimage := data.preimage
          route := { total_amt := some args.amount, total_fees := some 0 } } := rfl

/-- Claim C9 (confirmed): every Commando RPC request — connectPeer,
getInvoices, getInfo, getBalance, sendPayment, keysend, checkPayment,
signMessage, makeInvoice — carries the configured rune unchanged. -/
theorem c9_rune_passthrough (cfg : CommandoConfig) (hexEncode : String → String)
    (label : String) (cp : ConnectPeerArgs) (sp : SendPaymentArgs) (ks : KeysendArgs)
    (chk : CheckPaymentArgs) (sm : SignMessageArgs) (mi : MakeInvoiceArgs) :
    (Commando_connectPeerRequest cfg cp).rune = cfg.rune
    ∧ (Commando_getInvoicesRequest cfg).rune = cfg.rune
    ∧ (Commando_getInfoRequest cfg).rune = cfg.rune
    ∧ (Commando_getBalanceRequest cfg).rune = cfg.rune
    ∧ (Commando_sendPaymentRequest cfg sp).rune = cfg.rune
    ∧ (Commando_keysendRequest cfg hexEncode ks).rune = cfg.rune
    ∧ (Commando_checkPaymentRequest cfg chk).rune = cfg.rune
    ∧ (Commando_signMessageRequest cfg sm).rune = cfg.rune
    ∧ (Commando_makeInvoiceRequest cfg label mi).rune = cfg.rune :=
  ⟨rfl, rfl, rfl, rfl, rfl, rfl, rfl, rfl, rfl⟩

/-- Claim C10 (confirmed): `NWCConnector.getTransactions` requests at most 50
transactions with unpaid ones excluded, and the normalized list marks every
transaction settled, multiplies the remote `settled_at` by 1000 for the settle
date, and uses the list position (as a string) as the id. -/
theorem c10_getTransactions :
    NWC_getTransactionsParams = { unpaid := false, limit := 50 }
    ∧ (∀ ts n, (NWC_getTransactionsParse ts).get? n =
        (ts.get? n).map fun t => NWC_mapTransaction n t)
    ∧ (∀ i t, (NWC_mapTransaction i t).id = toString i
        ∧ (NWC_mapTransaction i t).settled = true
        ∧ (NWC_mapTransaction i t).settleDate = t.settled_at * 1000) := by
  refine ⟨rfl, ?_, ?_⟩
  · intro ts n
    have h := NWC_getTransactionsLoop_get? ts 0 n
    simpa [NWC_getTransactionsParse] using h
  · intro i t
    exact ⟨rfl, rfl, rfl⟩

/-- A settled sample invoice used to instantiate concrete checks. -/
def sampleCommandoInvoice : CommandoInvoice :=
  { label := "l1"
    status := "paid"
    description := "d"
    amount_received_msat := 1000
    bolt11 := "lnbc1"
    payment_preimage := "pre"
    paid_at := 1
    payment_hash := "hash" }

/-- Claim C3 (counterexample): the claim says a lookup exception never
propagates to the caller of `checkPayment`, for both connectors; but
`Commando.checkPayment` has no catch handler, so a rejected `listinvoices`
call propagates unchanged instead of yielding `paid: false`. -/
theorem c3_counterexample :
    Commando_checkPayment (Except.error "connection failed") =
      Except.error "connection failed"
    ∧ Commando_checkPayment (Except.error "connection failed") ≠
        Except.ok { paid := false } :=
  ⟨rfl, fun h => Except.noConfusion h⟩

/-- Claim C3 (amended): `Commando.checkPayment` returns `paid: false` whenever
the lookup reports an invoice count other than one and `paid: true` only when
exactly one invoice is reported with status `"paid"`, but a lookup exception
propagates to the caller unchanged; `NWCConnector.checkPayment` swallows
lookup exceptions into `paid: false` and reports `paid: true` exactly when the
lookup succeeds with a non-zero `settled_at`. -/
theorem c3_checkPayment_amended :
    (∀ e, Commando_checkPayment (Except.error e) = Except.error e)
    ∧ (∀ r, r.invoices.length ≠ 1 →
        Commando_checkPayment (Except.ok r) = Except.ok { paid := false })
    ∧ (∀ r, Commando_checkPayment (Except.ok r) = Except.ok { paid := true } →
        r.invoices.length = 1
        ∧ r.invoices.head?.map CommandoInvoice.status = some "paid")
    ∧ (∀ e, NWC_checkPayment (Except.error e) = { paid := false, preimage := none })
    ∧ (∀ resp, (NWC_checkPayment (Except.ok resp)).paid = true ↔
        resp.settled_at ≠ none ∧ resp.settled_at ≠ some 0) := by
  refine ⟨fun e => rfl, ?_, ?_, fun e => rfl, ?_⟩
  · intro r h
    simp [Commando_checkPayment, h]
  · intro r h
    by_cases hl : r.invoices.length = 1
    · refine ⟨hl, ?_⟩
      simp only [Commando_checkPayment, hl, ne_eq, not_true_eq_false, if_false,
        Except.ok.injEq] at h
      have hb : (r.invoices.head?.map CommandoInvoice.status == some "paid") = true := by
        have := congrArg CommandoCheckPaymentData.paid h
        simpa using this
      exact beq_iff_eq.mp hb
    · exfalso
      simp only [Commando_checkPayment, hl, ne_eq, not_false_eq_true, if_true,
        Except.ok.injEq] at h
      have := congrArg CommandoCheckPaymentData.paid h
      simp at this
  · intro resp
    cases h : resp.settled_at with
    | none => simp [NWC_checkPayment, h]
    | some n => simp [NWC_checkPayment, h]

/-- Claim C3 witness: the amended behaviour at concrete inputs — an empty
invoice list yields `paid: false`, a `paid: true` answer pins down exactly one
settled invoice, and a settled NWC lookup yields `paid: true`. -/
theorem c3_checkPayment_amended_witness :
    Commando_checkPayment (Except.ok { invoices := [] }) = Except.ok { paid := false }
    ∧ (CommandoListInvoiceResponse.mk [sampleCommandoInvoice]).invoices.length = 1
    ∧ (NWC_checkPayment (Except.ok { settled_at := some 5, preimage := none })).paid = true := by
  refine ⟨c3_checkPayment_amended.2.1 { invoices := [] } (by decide), ?_, ?_⟩
  · exact (c3_checkPayment_amended.2.2.1 (CommandoListInvoiceResponse.mk [sampleCommandoInvoice]) rfl).1
  · exact (c3_checkPayment_amended.2.2.2.2 { settled_at := some 5, preimage := none }).mpr
      (by simp)

/-- Claim C6 (confirmed): `NWCConnector.makeInvoice` returns the remote
payment hash when present; when the remote response omits it, it decodes the
returned payment request and returns the payment-hash tag found there; and —
given the decode succeeds — it fails with the missing-payment-hash error
exactly when the hash is absent from both the remote response and the decoded
request. -/
theorem c6_makeInvoice (decode : String → Except String PaymentRequestObject) :
    (∀ inv h, inv.payment_hash = some h → h ≠ "" →
        NWC_makeInvoice decode inv =
          Except.ok { paymentRequest := inv.invoice, rHash := h })
    ∧ (∀ inv dec h, (inv.payment_hash = none ∨ inv.payment_hash = some "") →
        decode inv.invoice = Except.ok dec →
        findTagData dec.tags "payment_hash" = some h → h ≠ "" →
        NWC_makeInvoice decode inv =
          Except.ok { paymentRequest := inv.invoice, rHash := h })
    ∧ (∀ inv dec, (inv.payment_hash = none ∨ inv.payment_hash = some "") →
        decode inv.invoice = Except.ok dec →
        (NWC_makeInvoice decode inv =
            Except.error "Could not find payment hash in invoice"
          ↔ (findTagData dec.tags "payment_hash" = none
             ∨ findTagData dec.tags "payment_hash" = some ""))) := by
  refine ⟨?_, ?_, ?_⟩
  · intro inv h hh hne
    simp [NWC_makeInvoice, hh, hne]
  · intro inv dec h hfalsy hdec htag hne
    rcases hfalsy with hnone | hempty
    · simp [NWC_makeInvoice, hnone, NWC_makeInvoiceFallback, hdec, htag, hne]
    · simp [NWC_makeInvoice, hempty, NWC_makeInvoiceFallback, hdec, htag, hne]
  · intro inv dec hfalsy hdec
    have hfb : NWC_makeInvoice decode inv = NWC_makeInvoiceFallback decode inv := by
      rcases hfalsy with hnone | hempty
      · simp [NWC_makeInvoice, hnone]
      · simp [NWC_makeInvoice, hempty]
    rw [hfb]
    constructor
    · intro herr
      cases htag : findTagData dec.tags "payment_hash" with
      | none => exact Or.inl rfl
      | some h =>
        by_cases hne : h = ""
        · subst hne; exact Or.inr rfl
        · exfalso
          simp [NWC_makeInvoiceFallback, hdec, htag, hne] at herr
    · intro htag
      rcases htag with hnone | hempty
      · simp [NWC_makeInvoiceFallback, hdec, hnone]
      · simp [NWC_makeInvoiceFallback, hdec, hempty]

/-- Claim C6 witness: concrete instances — a remote response carrying the hash
returns it directly; a response without a hash whose decoded payment request
carries the tag returns the tag; a response where both are absent fails. -/
theorem c6_makeInvoice_witness :
    NWC_makeInvoice (fun _ => Except.ok { tags := [], millisatoshis := none, satoshis := none })
        { invoice := "lnbc1", payment_hash := some "abc" } =
      Except.ok { paymentRequest := "lnbc1", rHash := "abc" }
    ∧ NWC_makeInvoice
        (fun _ => Except.ok
          { tags := [{ tagName := "payment_hash", data := "def" }]
            millisatoshis := none, satoshis := none })
        { invoice := "lnbc2", payment_hash := none } =
      Except.ok { paymentRequest := "lnbc2", rHash := "def" }
    ∧ NWC_makeInvoice (fun _ => Except.ok { tags := [], millisatoshis := none, satoshis := none })
        { invoice := "lnbc3", payment_hash := none } =
      Except.error "Could not find payment hash in invoice" := by
  refine ⟨?_, ?_, ?_⟩
  · exact (c6_makeInvoice _).1 { invoice := "lnbc1", payment_hash := some "abc" } "abc"
      rfl (by decide)
  · exact (c6_makeInvoice _).2.1 { invoice := "lnbc2", payment_hash := none }
      { tags := [{ tagName := "payment_hash", data := "def" }]
        millisatoshis := none, satoshis := none } "def"
      (Or.inl rfl) rfl rfl (by decide)
  · exact ((c6_makeInvoice _).2.2 { invoice := "lnbc3", payment_hash := none }
      { tags := [], millisatoshis := none, satoshis := none }
      (Or.inl rfl) rfl).mpr (Or.inl rfl)

/-- Claim C4 (confirmed): `NWCConnector.sendPayment` decodes the payment
request locally; when the decoded request carries no payment-hash tag it fails
with the missing-payment-hash error and no remote call is dispatched; when the
tag is present exactly one `pay_invoice` call is dispatched and the response
carries that hash, with the total amount taken from the millisatoshi tag
divided by 1000 when present and from the satoshi tag (defaulted to 0)
otherwise. -/
theorem c4_sendPayment (decode : String → Except String PaymentRequestObject)
    (payInvoice : String → Except String PayInvoiceResult) (args : SendPaymentArgs)
    (invoice : PaymentRequestObject)
    (hdec : decode args.paymentRequest = Except.ok invoice) :
    ((findTagData invoice.tags "payment_hash" = none
      ∨ findTagData invoice.tags "payment_hash" = some "") →
      NWC_sendPayment decode payInvoice args =
        ([], Except.error "Could not find payment hash in invoice"))
    ∧ (∀ ph, findTagData invoice.tags "payment_hash" = some ph → ph ≠ "" →
        (NWC_sendPayment decode payInvoice args).1 =
          [NWCCall.payInvoice args.paymentRequest]
        ∧ ∀ resp, payInvoice args.paymentRequest = Except.ok resp →
            ∀ d, (NWC_sendPayment decode payInvoice args).2 = Except.ok d →
              (d.paymentHash = ph ∧ d.preimage = resp.preimage
               ∧ d.route.total_fees = some 0)
              ∧ (invoice.millisatoshis = none →
                  d.route.total_amt = some ((invoice.satoshis.getD 0 : Int) : ℚ))
              ∧ (∀ ms, invoice.millisatoshis = some ms → ms ≠ "" →
                  d.route.total_amt = (jsParseInt ms).map fun n => (n : ℚ) / 1000)) := by
  constructor
  · intro hfalsy
    rcases hfalsy with hnone | hempty
    · simp [NWC_sendPayment, hdec, hnone]
    · simp [NWC_sendPayment, hdec, hempty]
  · intro ph htag hne
    cases hpay : payInvoice args.paymentRequest with
    | error e =>
      constructor
      · simp [NWC_sendPayment, hdec, htag, hne, hpay]
      · intro resp hresp
        exact Except.noConfusion hresp
    | ok resp0 =>
      constructor
      · simp [NWC_sendPayment, hdec, htag, hne, hpay]
      · intro resp hresp d hd
        have hr0 : resp0 = resp := by injection hresp
        subst hr0
        have hd2 : (NWC_sendPayment decode payInvoice args).2 =
            Except.ok
              { paymentHash := ph
                preimage := resp0.preimage
                route :=
                  { total_amt :=
                      match invoice.millisatoshis with
                      | some ms =>
                        if ms = "" then some ((invoice.satoshis.getD 0 : Int) : ℚ)
                        else (jsParseInt ms).map fun n => (n : ℚ) / 1000
                      | none => some ((invoice.satoshis.getD 0 : Int) : ℚ)
                    total_fees := some 0 } } := by
          simp [NWC_sendPayment, hdec, htag, hne, hpay]
        have hde : d =
            { paymentHash := ph
              preimage := resp0.preimage
              route :=
                { total_amt :=
                    match invoice.millisatoshis with
                    | some ms =>
                      if ms = "" then some ((invoice.satoshis.getD 0 : Int) : ℚ)
                      else (jsParseInt ms).map fun n => (n : ℚ) / 1000
                    | none => some ((invoice.satoshis.getD 0 : Int) : ℚ)
                  total_fees := some 0 } } := by
          have := hd.symm.trans hd2
          injection this
        subst hde
        refine ⟨⟨rfl, rfl, rfl⟩, ?_, ?_⟩
        · intro hms; simp [hms]
        · intro ms hms hmsne; simp [hms, hmsne]

/-- Local decode stub returning a fixed invoice without tags. -/
def decodeNoHash : String → Except String PaymentRequestObject :=
  fun _ => Except.ok { tags := [], millisatoshis := none, satoshis := some 21 }

/-- Local decode stub returning a fixed invoice with a payment-hash tag. -/
def decodeWithHash : String → Except String PaymentRequestObject :=
  fun _ => Except.ok
    { tags := [{ tagName := "payment_hash", data := "abc" }]
      millisatoshis := some "1500"
      satoshis := none }

/-- Remote pay stub returning a fixed preimage. -/
def payInvoiceConst : String → Except String PayInvoiceResult :=
  fun _ => Except.ok { preimage := "pre" }

/-- Claim C4 witness: a decoded request without the payment-hash tag fails with
the missing-payment-hash error and dispatches no remote call, while one with
the tag dispatches exactly the pay call. -/
theorem c4_sendPayment_witness :
    NWC_sendPayment decodeNoHash payInvoiceConst { paymentRequest := "lnbc1" } =
      ([], Except.error "Could not find payment hash in invoice")
    ∧ (NWC_sendPayment decodeWithHash payInvoiceConst { paymentRequest := "lnbc1" }).1 =
        [NWCCall.payInvoice "lnbc1"] := by
  constructor
  · exact (c4_sendPayment decodeNoHash payInvoiceConst { paymentRequest := "lnbc1" }
      { tags := [], millisatoshis := none, satoshis := some 21 } rfl).1 (Or.inl rfl)
  · exact ((c4_sendPayment decodeWithHash payInvoiceConst { paymentRequest := "lnbc1" }
      { tags := [{ tagName := "payment_hash", data := "abc" }]
        millisatoshis := some "1500"
        satoshis := none } rfl).2 "abc" rfl (by decide)).1

/-- Claim C7 (confirmed): each preview output resolves its address by the
ordered fallback — the first BIP32 derivation record's pubkey when a (decoded,
hence non-empty) derivation list is present, else the explicit destination;
when neither is present (or the destination is empty, which JavaScript treats
as falsy) the address is the literal `"UNKNOWN"` and no error is raised; and
every successfully previewed output reports the transaction output's value as
its amount. -/
theorem c7_previewOutput (p2tr : P2trArg → Except String (Option String)) (i : Nat) :
    (∀ m t d ds, m.tapBip32Derivation = some (d :: ds) →
        previewOutput p2tr i m t =
          previewOutputResolve p2tr i (some (P2trArg.bytes d.pubkey)) t)
    ∧ (∀ m t a, m.tapBip32Derivation = none → t.address = some a → a ≠ "" →
        previewOutput p2tr i m t =
          previewOutputResolve p2tr i (some (P2trArg.str a)) t)
    ∧ (∀ m t, m.tapBip32Derivation = none →
        (t.address = none ∨ t.address = some "") →
        previewOutput p2tr i m t = Except.ok { amount := t.value, address := "UNKNOWN" })
    ∧ (∀ m t a, previewOutput p2tr i m t = Except.ok a → a.amount = t.value) := by
  refine ⟨?_, ?_, ?_, ?_⟩
  · intro m t d ds hm
    simp [previewOutput, hm]
  · intro m t a hm ha hne
    simp [previewOutput, hm, ha, hne]
  · intro m t hm ha
    rcases ha with hnone | hempty
    · simp [previewOutput, hm, hnone, previewOutputResolve]
    · simp [previewOutput, hm, hempty, previewOutputResolve]
  · intro m t a h
    have hres : ∀ pk, previewOutputResolve p2tr i pk t = Except.ok a → a.amount = t.value := by
      intro pk hr
      cases pk with
      | none =>
        simp only [previewOutputResolve, Except.ok.injEq] at hr
        rw [← hr]
      | some arg =>
        simp only [previewOutputResolve] at hr
        cases hp : p2tr arg with
        | error e => rw [hp] at hr; exact Except.noConfusion hr
        | ok addr =>
          rw [hp] at hr
          cases addr with
          | none => exact Except.noConfusion hr
          | some s =>
            by_cases hs : s = ""
            · simp [hs] at hr
            · simp only [hs, if_false] at hr
              injection hr with hr2
              rw [← hr2]
    cases hm : m.tapBip32Derivation with
    | none =>
      rw [previewOutput, hm] at h
      cases hta : t.address with
      | none => exact hres none (by rw [hta] at h; exact h)
      | some s =>
        rw [hta] at h
        by_cases hs : s = ""
        · rw [hs] at h; simp only [if_pos rfl] at h; exact hres none h
        · simp only [hs, if_false] at h; exact hres (some (P2trArg.str s)) h
    | some l =>
      rw [previewOutput, hm] at h
      cases l with
      | nil => exact Except.noConfusion h
      | cons d ds => exact hres (some (P2trArg.bytes d.pubkey)) h

/-- Constant external `btc.p2tr` used for concrete checks. -/
def p2trConst : P2trArg → Except String (Option String) :=
  fun _ => Except.ok (some "bc1ptest")

/-- Claim C7 witness: concrete outputs — a derivation record resolves through
it, a bare destination resolves through the destination, neither yields the
`"UNKNOWN"` marker without failing, and the amount is the output value. -/
theorem c7_previewOutput_witness :
    previewOutput p2trConst 0 { tapBip32Derivation := some [{ pubkey := [2] }] }
        { address := none, value := 7 } =
      previewOutputResolve p2trConst 0 (some (P2trArg.bytes [2]))
        { address := none, value := 7 }
    ∧ previewOutput p2trConst 0 { tapBip32Derivation := none }
        { address := some "bc1q", value := 8 } =
      previewOutputResolve p2trConst 0 (some (P2trArg.str "bc1q"))
        { address := some "bc1q", value := 8 }
    ∧ previewOutput p2trConst 0 { tapBip32Derivation := none }
        { address := none, value := 9 } =
      Except.ok { amount := 9, address := "UNKNOWN" }
    ∧ (AddressEntry.mk 9 "UNKNOWN").amount = (TxOutput.mk none 9).value := by
  refine ⟨?_, ?_, ?_, ?_⟩
  · exact (c7_previewOutput p2trConst 0).1 _ _ { pubkey := [2] } [] rfl
  · exact (c7_previewOutput p2trConst 0).2.1 _ _ "bc1q" rfl rfl (by decide)
  · exact (c7_previewOutput p2trConst 0).2.2.1 _ _ rfl (Or.inl rfl)
  · exact (c7_previewOutput p2trConst 0).2.2.2 { tapBip32Derivation := none }
      { address := none, value := 9 } { amount := 9, address := "UNKNOWN" }
      ((c7_previewOutput p2trConst 0).2.2.1 _ _ rfl (Or.inl rfl))

/-- Claim C2 (confirmed): the tweaked signing key is computed by negating the
private scalar when the raw public key's first byte is 3 (odd Y), adding —
modulo the curve order — the tagged hash taken over the X-only public key
alone (no merkle root) or over the X-only key concatenated with the root, and
failing with an error when the resulting scalar is invalid (out-of-range tweak
or zero sum); the computation is deterministic in `(publicKey, privateKey)`. -/
theorem c2_tweakSigner (H : List Nat → Nat) (signer : Signer) (th : Option (List Nat))
    (k : Nat) (hk : signer.privateKey = some k) :
    (∀ p, tapTweakHash H p none = H p)
    ∧ (∀ p r, tapTweakHash H p (some r) = H (p ++ r))
    ∧ tweakSigner H signer th =
        (let k1 := if signer.publicKey.head? = some 3 then privateNegate k else k
         let t := tapTweakHash H (toXOnly signer.publicKey) th
         if SECP_N ≤ t ∨ (k1 + t) % SECP_N = 0 then
           Except.error "Invalid tweaked private key!"
         else Except.ok ((k1 + t) % SECP_N))
    ∧ tweakSigner H signer th = tweakSigner H signer th := by
  refine ⟨fun p => rfl, fun p r => rfl, ?_, rfl⟩
  rw [tweakSigner, hk]
  set k1 := if signer.publicKey.head? = some 3 then privateNegate k else k with hk1
  set t := tapTweakHash H (toXOnly signer.publicKey) th with ht
  show (match privateAdd k1 t with
        | none => Except.error "Invalid tweaked private key!"
        | some tk => ECPair_fromPrivateKey tk) = _
  by_cases h1 : SECP_N ≤ t
  · simp [privateAdd, h1]
  · by_cases h2 : (k1 + t) % SECP_N = 0
    · simp [privateAdd, h1, h2]
    · have hlt : (k1 + t) % SECP_N < SECP_N := Nat.mod_lt _ (by decide)
      have hnle : ¬ SECP_N ≤ (k1 + t) % SECP_N := Nat.not_le_of_lt hlt
      simp [privateAdd, h1, h2, ECPair_fromPrivateKey, hnle]

/-- Claim C2 witness: a concrete odd-Y signer (public key starting with
byte 3) with secret scalar 5 and constant tagged hash 1 is tweaked to
`(-5 mod n) + 1`. -/
theorem c2_tweakSigner_witness :
    tweakSigner (fun _ => 1) { privateKey := some 5, publicKey := [3] } none =
      Except.ok ((privateNegate 5 + 1) % SECP_N) := by
  have h := (c2_tweakSigner (fun _ => 1) { privateKey := some 5, publicKey := [3] }
    none 5 rfl).2.2.1
  rw [h]
  rfl

theorem isPrefixOf_msat_digit_cons (c : Char) (hc : c.isDigit = true) (l : List Char) :
    List.isPrefixOf msatPat (c :: l) = false := by
  have hne : ('m' == c) = false := by
    rcases Decidable.em (c = 'm') with h | h
    · exact absurd (h ▸ hc) (by decide)
    · exact beq_eq_false_iff_ne.mpr fun h2 => h h2.symm
  simp [msatPat, List.isPrefixOf, hne]

theorem removeFirst_msat_append (d : List Char) (hd : d.all Char.isDigit = true) :
    removeFirst msatPat (d ++ msatPat) = d := by
  induction d with
  | nil => rfl
  | cons c rest ih =>
    have hc : c.isDigit = true := by
      have := List.all_eq_true.mp hd c (List.mem_cons_self c rest)
      simpa using this
    have hrest : rest.all Char.isDigit = true := by
      refine List.all_eq_true.mpr fun x hx => ?_
      exact List.all_eq_true.mp hd x (List.mem_cons_of_mem c hx)
    have hpre := isPrefixOf_msat_digit_cons c hc (rest ++ msatPat)
    simp only [List.cons_append, removeFirst, List.append_eq, hpre, Bool.false_eq_true,
      if_false, List.cons.injEq, true_and]
    exact ih hrest

theorem jsNumberOfChars_digits (d : List Char) (h0 : d ≠ []) (hd : d.all Char.isDigit = true) :
    jsNumberOfChars d = some ((digitsToNat d : ℚ)) := by
  simp [jsNumberOfChars, h0, hd]

/-- Claim C8 (confirmed): when a Commando `pay`/`keysend` response carries
decimal-digit amounts suffixed with `"msat"`, the normalized response strips
the suffix and converts to whole units — the total amount is the
`amount_msat` value over 1000 and the fees are the difference of
`amount_sent_msat` and `amount_msat` over 1000, as plain numbers. -/
theorem c8_msat_normalization (resp : CommandoPayInvoiceResponse) (d1 d2 : List Char)
    (h1 : resp.amount_msat = d1 ++ msatPat) (h2 : resp.amount_sent_msat = d2 ++ msatPat)
    (hd1 : d1 ≠ [] ∧ d1.all Char.isDigit = true)
    (hd2 : d2 ≠ [] ∧ d2.all Char.isDigit = true) :
    Commando_sendPaymentParse resp =
      { paymentHash := resp.payment_hash
        preimage := resp.payment_preimage
        route :=
          { total_amt := some ((digitsToNat d1 : ℚ) / 1000)
            total_fees := some (((digitsToNat d2 : ℚ) - (digitsToNat d1 : ℚ)) / 1000) } }
    ∧ Commando_keysendParse resp =
      { paymentHash := resp.payment_hash
        preimage := resp.payment_preimage
        route :=
          { total_amt := some ((digitsToNat d1 : ℚ) / 1000)
            total_fees := some (((digitsToNat d2 : ℚ) - (digitsToNat d1 : ℚ)) / 1000) } } := by
  have hr1 : removeFirst msatPat resp.amount_msat = d1 := by
    rw [h1]; exact removeFirst_msat_append d1 hd1.2
  have hr2 : removeFirst msatPat resp.amount_sent_msat = d2 := by
    rw [h2]; exact removeFirst_msat_append d2 hd2.2
  have hn1 := jsNumberOfChars_digits d1 hd1.1 hd1.2
  have hn2 := jsNumberOfChars_digits d2 hd2.1 hd2.2
  constructor
  · simp [Commando_sendPaymentParse, hr1, hr2, hn1, hn2]
  · simp [Commando_keysendParse, hr1, hr2, hn1, hn2]

/-- A concrete `pay`/`keysend` response with `"1500msat"` and `"1600msat"`
amounts. -/
def samplePayResponse : CommandoPayInvoiceResponse :=
  { payment_preimage := "pre"
    payment_hash := "hash"
    amount_msat := ['1', '5', '0', '0'] ++ msatPat
    amount_sent_msat := ['1', '6', '0', '0'] ++ msatPat }

/-- Claim C8 witness: the concrete response normalizes to 1500/1000 total and
(1600-1500)/1000 fees, for both operations. -/
theorem c8_msat_normalization_witness :
    Commando_sendPaymentParse samplePayResponse =
      { paymentHash := "hash"
        preimage := "pre"
        route :=
          { total_amt := some ((digitsToNat ['1', '5', '0', '0'] : ℚ) / 1000)
            total_fees :=
              some (((digitsToNat ['1', '6', '0', '0'] : ℚ)
                - (digitsToNat ['1', '5', '0', '0'] : ℚ)) / 1000) } }
    ∧ Commando_keysendParse samplePayResponse =
      { paymentHash := "hash"
        preimage := "pre"
        route :=
          { total_amt := some ((digitsToNat ['1', '5', '0', '0'] : ℚ) / 1000)
            total_fees :=
              some (((digitsToNat ['1', '6', '0', '0'] : ℚ)
                - (digitsToNat ['1', '5', '0', '0'] : ℚ)) / 1000) } } :=
  c8_msat_normalization samplePayResponse ['1', '5', '0', '0'] ['1', '6', '0', '0']
    rfl rfl ⟨by decide, by decide⟩ ⟨by decide, by decide⟩

/-- A proposal with no inputs and no outputs. -/
def psbtZeroInput : ParsedPsbt := { inputs := [], outputsMeta := [], txOutputs := [] }

/-- A proposal with two taproot inputs. -/
def psbtTwoInput : ParsedPsbt :=
  { inputs :=
      [{ tapInternalKey := some [2], tapBip32Derivation := none
         witnessUtxo := some { value := 1000 } },
       { tapInternalKey := some [2], tapBip32Derivation := none
         witnessUtxo := some { value := 2000 } }]
    outputsMeta := []
    txOutputs := [] }

/-- External PSBT operations that always succeed, for concrete runs. -/
def signExtConst : SignExt :=
  { signTaprootInput := fun st _ _ => Except.ok st
    finalizeAllInputs := fun st => Except.ok st
    extractTransaction := fun _ => Except.ok "deadbeef" }

/-- Constant key provider for concrete runs. -/
def deriveKeyConst : String → KeyPair := fun _ => { privateKey := 1, publicKey := [2] }

/-- Constant public-key derivation for concrete runs. -/
def pubOfConst : Nat → List Nat := fun _ => [2]

/-- Constant tagged hash for concrete runs. -/
def tapHashConst : List Nat → Nat := fun _ => 1

/-- Claim C1 (counterexample): a zero-input proposal is not rejected by
`getPsbtPreview` — it returns an empty preview — and a two-input proposal is
signed by `signPsbt` after a key-derivation call (its first action) with no
input-count error, contradicting the claimed rejection before derivation. -/
theorem c1_counterexample :
    getPsbtPreview p2trConst psbtZeroInput = Except.ok { inputs := [], outputs := [] }
    ∧ (signPsbt signExtConst deriveKeyConst pubOfConst tapHashConst "bitcoin"
        psbtTwoInput).1 =
      [SignAction.deriveKey (signDerivationPath "bitcoin"), SignAction.signInput 0,
       SignAction.signInput 1, SignAction.finalize, SignAction.extract]
    ∧ (signPsbt signExtConst deriveKeyConst pubOfConst tapHashConst "bitcoin"
        psbtTwoInput).2 = Except.ok "deadbeef" :=
  ⟨rfl, rfl, rfl⟩

/-- Claim C1 (amended): `getPsbtPreview` rejects every proposal with two or
more inputs with an error (thrown on reaching the second input), but a
zero-input proposal is not rejected — the preview proceeds with an empty input
list and whatever the output loop produces; `signPsbt` performs no input-count
check at all and its very first action, for every proposal, is the
key-derivation call. -/
theorem c1_input_count_amended :
    (∀ p2tr psbt, 2 ≤ psbt.inputs.length → (getPsbtPreview p2tr psbt).isOk = false)
    ∧ (∀ p2tr psbt, psbt.inputs = [] →
        getPsbtPreview p2tr psbt =
          match previewOutputs p2tr 0 psbt.outputsMeta psbt.txOutputs with
          | Except.error e => Except.error e
          | Except.ok outs => Except.ok { inputs := [], outputs := outs })
    ∧ (∀ ext dk pubOf H nt psbt,
        (signPsbt ext dk pubOf H nt psbt).1.head? =
          some (SignAction.deriveKey (signDerivationPath nt))) := by
  refine ⟨?_, ?_, ?_⟩
  · intro p2tr psbt hlen
    match hin : psbt.inputs with
    | [] => rw [hin] at hlen; simp at hlen
    | [a] => rw [hin] at hlen; simp at hlen
    | a :: b :: rest =>
      rw [getPsbtPreview, hin]
      cases h0 : previewInput p2tr 0 a with
      | error e => simp [previewInputs, h0, Except.isOk, Except.toBool]
      | ok x =>
        have h1 : previewInputs p2tr 1 (b :: rest) =
            Except.error "Multiple inputs currently unsupported" := by
          simp [previewInputs]
        simp [previewInputs, h0, h1, Except.isOk, Except.toBool]
  · intro p2tr psbt hin
    rw [getPsbtPreview, hin]
    rfl
  · intro ext dk pubOf H nt psbt
    simp only [signPsbt]
    cases h : signPsbtAfterDerive ext pubOf H (dk (signDerivationPath nt)) psbt with
    | mk acts r => simp

/-- Claim C1 witness: the amended behaviour at concrete proposals — the
two-input proposal fails the preview, the zero-input proposal previews as the
output loop alone, and a concrete regtest signing run starts with the
derivation action. -/
theorem c1_input_count_amended_witness :
    (getPsbtPreview p2trConst psbtTwoInput).isOk = false
    ∧ getPsbtPreview p2trConst psbtZeroInput =
        (match previewOutputs p2trConst 0 psbtZeroInput.outputsMeta
            psbtZeroInput.txOutputs with
         | Except.error e => Except.error e
         | Except.ok outs => Except.ok { inputs := [], outputs := outs })
    ∧ (signPsbt signExtConst deriveKeyConst pubOfConst tapHashConst "regtest"
        psbtZeroInput).1.head? =
      some (SignAction.deriveKey (signDerivationPath "regtest")) := by
  refine ⟨?_, ?_, ?_⟩
  · exact c1_input_count_amended.1 p2trConst psbtTwoInput (by decide)
  · exact c1_input_count_amended.2.1 p2trConst psbtZeroInput rfl
  · exact c1_input_count_amended.2.2 signExtConst deriveKeyConst pubOfConst tapHashConst
      "regtest" psbtZeroInput
